import Mathlib

/-!
Verification development for the `pvl-webtools` repository
(`src/pvlwebtools/web_fetch.py`, `src/pvlwebtools/web_search.py`).

Strings are modelled as `List Char`.  Python regular-expression passes are
modelled as deterministic scanners that reproduce the matching semantics of
the concrete patterns appearing in the source (leftmost, non-overlapping
matches; greedy `[^>]*` runs up to the first `>`; lazy `[\s\S]*?` runs up to
the first occurrence of the closing literal).  `re.IGNORECASE` on the
ASCII-only patterns of the source is modelled by ASCII case-insensitive
character comparison.  The Python standard-library entity decoder
`html.unescape` is an external black box and is modelled as an arbitrary
function parameter `unescape : List Char → List Char`; concrete evaluations
instantiate it with the identity, which agrees with `html.unescape` on
inputs that contain no `&`.
-/

set_option linter.unusedVariables false

/-! ### Character helpers -/

/-- The character `<`. -/
def chLt : Char := '<'

/-- The character `>`. -/
def chGt : Char := '>'

/-- The space character. -/
def chSp : Char := ' '

/-- The newline character. -/
def chNl : Char := Char.ofNat 10

/-- The double-quote character. -/
def chDQ : Char := Char.ofNat 34

/-- The single-quote character. -/
def chSQ : Char := Char.ofNat 39

/-- The character `-`. -/
def chDash : Char := '-'

/-- The character `.`. -/
def chDot : Char := '.'

/-- The character `_`. -/
def chUnderscore : Char := '_'

/-- The character `!`. -/
def chBang : Char := '!'

/-- ASCII uppercase letter test. -/
def isAsciiUpper (c : Char) : Bool := 65 ≤ c.toNat && c.toNat ≤ 90

/-- ASCII case-insensitive character comparison: models how `re.IGNORECASE`
compares the ASCII-only pattern letters of `web_fetch.py` with subject
characters. -/
def lowerEq (a b : Char) : Bool :=
  a == b || (isAsciiUpper a && b.toNat == a.toNat + 32) || (isAsciiUpper b && a.toNat == b.toNat + 32)

/-- Case-sensitive character comparison (plain regex literals). -/
def charEq (a b : Char) : Bool := a == b

/-- ASCII fragment of Python's `\s` class (space, tab, LF, VT, FF, CR),
used by the `\s+` collapse and by `str.strip()`. -/
def isPySpace (c : Char) : Bool := c.toNat == 32 || (9 ≤ c.toNat && c.toNat ≤ 13)

/-- ASCII digit test. -/
def isDigitChar (c : Char) : Bool := 48 ≤ c.toNat && c.toNat ≤ 57

/-- ASCII letter-or-digit test (the character class `[a-zA-Z0-9]`). -/
def isAlnumChar (c : Char) : Bool :=
  (48 ≤ c.toNat && c.toNat ≤ 57) || (65 ≤ c.toNat && c.toNat ≤ 90) || (97 ≤ c.toNat && c.toNat ≤ 122)

/-- ASCII fragment of the regex `\w` class. -/
def isWordChar (c : Char) : Bool := isAlnumChar c || c == chUnderscore

/-- Quote class `["\']` used by the metadata regexes. -/
def isQuote (c : Char) : Bool := c == chDQ || c == chSQ

/-! ### Generic scanning primitives -/

/-- Pairwise comparison of a pattern against the head of a subject. -/
def startsWithBy (eqc : Char → Char → Bool) : List Char → List Char → Bool
  | [], _ => true
  | _ :: _, [] => false
  | p :: ps, c :: cs => eqc p c && startsWithBy eqc ps cs

/-- Number of characters consumed by `[^>]*>` (greedy up to and including the
first `>`); `none` when no `>` occurs. -/
def gtSplit : List Char → Option Nat
  | [] => none
  | c :: cs => if c = chGt then some 1 else (gtSplit cs).map (· + 1)

/-- Number of characters consumed by a lazy run up to and including the first
occurrence of `pat` (the semantics of `[\s\S]*?pat`); `none` when `pat` does
not occur. -/
def firstEndBy (eqc : Char → Char → Bool) (pat : List Char) : List Char → Option Nat
  | [] => if pat.isEmpty then some 0 else none
  | c :: cs =>
    if startsWithBy eqc pat (c :: cs) then some pat.length
    else (firstEndBy eqc pat cs).map (· + 1)

/-- The characters before the first occurrence of `pat` (the lazy group of
`(.*?)pat`); `none` when `pat` does not occur. -/
def splitBeforeBy (eqc : Char → Char → Bool) (pat : List Char) : List Char → Option (List Char)
  | [] => if pat.isEmpty then some [] else none
  | c :: cs =>
    if startsWithBy eqc pat (c :: cs) then some []
    else (splitBeforeBy eqc pat cs).map (fun l => c :: l)

/-- Case-sensitive substring occurrence test. -/
def occursIn (pat : List Char) : List Char → Bool
  | [] => pat.isEmpty
  | c :: cs => startsWithBy charEq pat (c :: cs) || occursIn pat cs

/-- One pass of `re.sub(pattern, repl, text)` for a pattern whose match length
at a position is computed by `f` (`f l = some n` means the match starting at
`l` spans `n ≥ 1` characters): leftmost non-overlapping matches are replaced
by `repl` and scanning resumes after the match.  The `fuel` argument is a
structural-recursion bound; it is set to the length of the list by `subBlocks`
and never runs out. -/
def subBlocksF (f : List Char → Option Nat) (repl : List Char) : Nat → List Char → List Char
  | _, [] => []
  | 0, l => l
  | fuel + 1, c :: cs =>
    match f (c :: cs) with
    | some (n + 1) => repl ++ subBlocksF f repl fuel (cs.drop n)
    | _ => c :: subBlocksF f repl fuel cs

/-- `re.sub` driver: see `subBlocksF`. -/
def subBlocks (f : List Char → Option Nat) (repl : List Char) (l : List Char) : List Char :=
  subBlocksF f repl l.length l

/-! ### String constants of `_regex_extract` -/

/-- Literal `<script`. -/
def scriptOpen : List Char := "<script".toList

/-- Literal `</script>`. -/
def scriptClose : List Char := "</script>".toList

/-- Literal `<style`. -/
def styleOpen : List Char := "<style".toList

/-- Literal `</style>`. -/
def styleClose : List Char := "</style>".toList

/-- Literal `<!--`. -/
def commentOpen : List Char := "<!--".toList

/-- Literal `-->`. -/
def commentClose : List Char := "-->".toList

/-- The replacement string of the tag-removal pass. -/
def spaceRepl : List Char := [chSp]

/-- The ellipsis marker appended on truncation. -/
def ellipsisMarker : List Char := "...".toList

/-! ### `_regex_extract` (web_fetch.py lines 145-168) -/

/-- Match length of `openTok[^>]*>[\s\S]*?closeTok` at the head of `cs`
(used with `re.IGNORECASE` via `lowerEq`). -/
def tagBlockLen (eqc : Char → Char → Bool) (openTok closeTok : List Char) (cs : List Char) :
    Option Nat :=
  if startsWithBy eqc openTok cs then
    match gtSplit (cs.drop openTok.length) with
    | some g =>
      match firstEndBy eqc closeTok (cs.drop (openTok.length + g)) with
      | some e => some (openTok.length + g + e)
      | none => none
    | none => none
  else none

/-- Match length of `<script[^>]*>[\s\S]*?</script>` (case-insensitive). -/
def scriptLen : List Char → Option Nat := tagBlockLen lowerEq scriptOpen scriptClose

/-- Match length of `<style[^>]*>[\s\S]*?</style>` (case-insensitive). -/
def styleLen : List Char → Option Nat := tagBlockLen lowerEq styleOpen styleClose

/-- Match length of `<!--[\s\S]*?-->` (case-sensitive). -/
def commentLen (cs : List Char) : Option Nat :=
  if startsWithBy charEq commentOpen cs then
    match firstEndBy charEq commentClose (cs.drop 4) with
    | some e => some (4 + e)
    | none => none
  else none

/-- Match length of `<[^>]+>`. -/
def tagLen : List Char → Option Nat
  | [] => none
  | c :: cs =>
    if c = chLt then
      match gtSplit cs with
      | some g => if 2 ≤ g then some (1 + g) else none
      | none => none
    else none

/-- One pass of `re.sub(r"\s+", " ", text)`: every maximal run of whitespace
becomes a single space.  `inRun` records whether the previous character was
part of a whitespace run. -/
def collapseWsGo (inRun : Bool) : List Char → List Char
  | [] => []
  | c :: cs =>
    if isPySpace c then
      if inRun then collapseWsGo true cs else chSp :: collapseWsGo true cs
    else c :: collapseWsGo false cs

/-- `re.sub(r"\s+", " ", text)`. -/
def collapseWs (l : List Char) : List Char := collapseWsGo false l

/-- Python `str.strip()` (whitespace from both ends). -/
def pyStrip (l : List Char) : List Char :=
  ((l.dropWhile isPySpace).reverse.dropWhile isPySpace).reverse

/-- `_regex_extract` of web_fetch.py: delete script blocks, style blocks and
comments, replace remaining tags by a space, decode entities (`unescape`
parameter), collapse whitespace, strip, and truncate to 20000 characters with
a `...` marker. -/
def regex_extract (unescape : List Char → List Char) (html_content : List Char) : List Char :=
  let text1 := subBlocks scriptLen [] html_content
  let text2 := subBlocks styleLen [] text1
  let text3 := subBlocks commentLen [] text2
  let text4 := subBlocks tagLen spaceRepl text3
  let text5 := unescape text4
  let text6 := pyStrip (collapseWs text5)
  if 20000 < text6.length then text6.take 20000 ++ ellipsisMarker else text6

/-! ### `_extract_metadata` (web_fetch.py lines 171-198)

The three regexes of `_extract_metadata` are modelled by deterministic
scanners.  For the `<meta ...>` patterns the greedy `[^>]*` gaps are resolved
exactly as the backtracking engine does: the latest start of the
`property=`/`name=` block inside the run of non-`>` characters is tried
first, and for each such choice the latest start of the `content=` block is
tried first; the first combination that completes is the match. -/

/-- Literal `<meta`. -/
def metaOpen : List Char := "<meta".toList

/-- Literal `property=`. -/
def propEq : List Char := "property=".toList

/-- Literal `og:`. -/
def ogColon : List Char := "og:".toList

/-- Literal `content=`. -/
def contentEq : List Char := "content=".toList

/-- Literal `name=`. -/
def nameEq : List Char := "name=".toList

/-- Literal `description`. -/
def descrStr : List Char := "description".toList

/-- Literal `<title`. -/
def titleOpen : List Char := "<title".toList

/-- Literal `</title>`. -/
def titleClose : List Char := "</title>".toList

/-- Match of `property=["\']og:(\w+)["\']` at the head of `cs`: returns the
consumed length and the captured `\w+` group.  The two quote characters are
matched independently, as in the source pattern. -/
def propBlockAt (cs : List Char) : Option (Nat × List Char) :=
  if startsWithBy lowerEq propEq cs then
    match cs.drop 9 with
    | q :: rest =>
      if isQuote q && startsWithBy lowerEq ogColon rest then
        let w := (rest.drop 3).takeWhile isWordChar
        if w.isEmpty then none
        else
          match (rest.drop 3).drop w.length with
          | q2 :: _ => if isQuote q2 then some (9 + 1 + 3 + w.length + 1, w) else none
          | [] => none
      else none
    | [] => none
  else none

/-- Match of `content=["\']([^"\']*)["\']` at the head of `cs`: returns the
consumed length and the captured group. -/
def contentBlockAt (cs : List Char) : Option (Nat × List Char) :=
  if startsWithBy lowerEq contentEq cs then
    match cs.drop 8 with
    | q :: rest =>
      if isQuote q then
        let v := rest.takeWhile (fun c => !(isQuote c))
        match rest.drop v.length with
        | q2 :: _ => if isQuote q2 then some (8 + 1 + v.length + 1, v) else none
        | [] => none
      else none
    | [] => none
  else none

/-- Match of `name=["\']description["\']` at the head of `cs`. -/
def nameBlockAt (cs : List Char) : Option Nat :=
  if startsWithBy lowerEq nameEq cs then
    match cs.drop 5 with
    | q :: rest =>
      if isQuote q && startsWithBy lowerEq descrStr rest then
        match rest.drop 11 with
        | q2 :: _ => if isQuote q2 then some (5 + 1 + 11 + 1) else none
        | [] => none
      else none
    | [] => none
  else none

/-- Backtracking resolution of `[^>]*property=["\']og:(\w+)["\'][^>]*content=["\']([^"\']*)["\']`
against `body` (the text following `<meta`): greedy gap choices, tried from
the latest start downwards.  Returns consumed length (within `body`), the
property group, and the content group. -/
def lastOgMatch (body : List Char) : Option (Nat × List Char × List Char) :=
  let span := body.takeWhile (fun c => !(c == chGt))
  (List.range (span.length + 1)).reverse.findSome? (fun s1 =>
    match propBlockAt (body.drop s1) with
    | none => none
    | some (l1, w) =>
      let rest := body.drop (s1 + l1)
      let span2 := rest.takeWhile (fun c => !(c == chGt))
      (List.range (span2.length + 1)).reverse.findSome? (fun s2 =>
        match contentBlockAt (rest.drop s2) with
        | none => none
        | some (l2, v) => some (s1 + l1 + s2 + l2, w, v)))

/-- Match of the whole Open-Graph pattern at the head of `cs`: `<meta`
followed by the gap-resolved property/content blocks. -/
def metaOgAt (cs : List Char) : Option (Nat × List Char × List Char) :=
  if startsWithBy lowerEq metaOpen cs then
    (lastOgMatch (cs.drop 5)).map (fun r => (5 + r.1, r.2.1, r.2.2))
  else none

/-- `re.findall` driver for the Open-Graph pattern: leftmost non-overlapping
matches, scanning resumes after each match.  `fuel` is a structural bound set
to the length of the list by `ogFindAll`. -/
def ogFindAllF : Nat → List Char → List (List Char × List Char)
  | _, [] => []
  | 0, _ => []
  | fuel + 1, c :: cs =>
    match metaOgAt (c :: cs) with
    | some (n + 1, w, v) => (w, v) :: ogFindAllF fuel (cs.drop n)
    | _ => ogFindAllF fuel cs

/-- All Open-Graph `(property, content)` matches, in document order. -/
def ogFindAll (l : List Char) : List (List Char × List Char) :=
  ogFindAllF l.length l

/-- Backtracking resolution of the description pattern gaps against the text
following `<meta`; returns consumed length and the content group. -/
def lastDescMatch (body : List Char) : Option (Nat × List Char) :=
  let span := body.takeWhile (fun c => !(c == chGt))
  (List.range (span.length + 1)).reverse.findSome? (fun s1 =>
    match nameBlockAt (body.drop s1) with
    | none => none
    | some l1 =>
      let rest := body.drop (s1 + l1)
      let span2 := rest.takeWhile (fun c => !(c == chGt))
      (List.range (span2.length + 1)).reverse.findSome? (fun s2 =>
        match contentBlockAt (rest.drop s2) with
        | none => none
        | some (l2, v) => some (s1 + l1 + s2 + l2, v)))

/-- `re.search` for `<meta[^>]*name=["\']description["\'][^>]*content=["\']([^"\']*)["\']`:
first position admitting a full match; returns the content group. -/
def descSearch : List Char → Option (List Char)
  | [] => none
  | c :: cs =>
    if startsWithBy lowerEq metaOpen (c :: cs) then
      match lastDescMatch ((c :: cs).drop 5) with
      | some r => some r.2
      | none => descSearch cs
    else descSearch cs

/-- `re.search` for `<title[^>]*>(.*?)</title>` (IGNORECASE, DOTALL): first
position admitting a full match; returns the lazy group. -/
def titleSearch : List Char → Option (List Char)
  | [] => none
  | c :: cs =>
    if startsWithBy lowerEq titleOpen (c :: cs) then
      match gtSplit ((c :: cs).drop 6) with
      | some g =>
        match splitBeforeBy lowerEq titleClose ((c :: cs).drop (6 + g)) with
        | some before => some before
        | none => titleSearch cs
      | none => titleSearch cs
    else titleSearch cs

/-- Python `dict` assignment `d[k] = v` on an insertion-ordered association
list: an existing key keeps its position and gets the new value; a new key is
appended. -/
def dictInsert (k v : List Char) : List (List Char × List Char) → List (List Char × List Char)
  | [] => [(k, v)]
  | (k2, v2) :: rest => if k2 = k then (k2, v) :: rest else (k2, v2) :: dictInsert k v rest

/-- Python `"\n".join`. -/
def joinLinesNl : List (List Char) → List Char
  | [] => []
  | [x] => x
  | x :: y :: rest => x ++ chNl :: joinLinesNl (y :: rest)

/-- Key `title`. -/
def titleKey : List Char := "title".toList

/-- Key `description`. -/
def descKey : List Char := "description".toList

/-- Key prefix for Open-Graph entries. -/
def ogPre : List Char := "og_".toList

/-- The `: ` separator of the emitted lines. -/
def colonSp : List Char := ": ".toList

/-- `_extract_metadata` of web_fetch.py: title, description and Open-Graph
entries are written into an insertion-ordered dict and joined as
`key: value` lines. -/
def extract_metadata (u : List Char → List Char) (html_content : List Char) : List Char :=
  let d0 : List (List Char × List Char) := []
  let d1 := match titleSearch html_content with
    | some g => dictInsert titleKey (u (pyStrip g)) d0
    | none => d0
  let d2 := match descSearch html_content with
    | some g => dictInsert descKey (u (pyStrip g)) d1
    | none => d1
  let d3 := (ogFindAll html_content).foldl
    (fun d pv => dictInsert (ogPre ++ pv.1) (u (pyStrip pv.2)) d) d2
  joinLinesNl (d3.map (fun kv => kv.1 ++ colonSp ++ kv.2))

/-! ### `_extract_markdown`, `_extract_article` and `web_fetch`
(web_fetch.py lines 66-113, 116-142, 201-265)

The optional external capabilities (markitdown, trafilatura) are modelled as
function parameters returning `Option (List Char)`: `none` stands for
"library unavailable, conversion raised, or conversion produced no result"
— exactly the cases the source collapses into its `return None` /
fall-through paths.  The HTTP layer is modelled by an explicit
`Except`-valued network outcome. -/

/-- The four extraction modes. -/
inductive ExtractMode where
  | markdown
  | article
  | raw
  | metadata
deriving DecidableEq, Repr

/-- Result record of `web_fetch`. -/
structure FetchResult where
  url : List Char
  content : List Char
  content_length : Nat
  extract_mode : ExtractMode
deriving DecidableEq, Repr

/-- Outcomes of the external capabilities for a given HTML input. -/
structure Extractors where
  markitdown : List Char → Option (List Char)
  trafilatura : List Char → Option (List Char)

/-- Truncation marker of `_extract_markdown`. -/
def truncMarker : List Char := "\n\n[Content truncated...]".toList

/-- `_extract_markdown`: delegate outcome, truncated to 100000 characters
with the truncation marker appended when exceeded; `none` propagates. -/
def extract_markdown (delegate : List Char → Option (List Char)) (html_content : List Char) :
    Option (List Char) :=
  match delegate html_content with
  | some text => some (if 100000 < text.length then text.take 100000 ++ truncMarker else text)
  | none => none

/-- `_extract_article`: trafilatura result when truthy (non-empty), else the
regex fallback. -/
def extract_article (traf : List Char → Option (List Char)) (u : List Char → List Char)
    (html_content : List Char) : List Char :=
  match traf html_content with
  | some result => if result.isEmpty then regex_extract u html_content else result
  | none => regex_extract u html_content

/-- An HTTP response as seen by `_fetch_url`: status code, the
`content-length` header (if present), and the decoded body text. -/
structure HttpResponse where
  status : Nat
  contentLengthHeader : Option (List Char)
  text : List Char

/-- Python exceptions that can escape `_fetch_url`, distinguished by the
classes tested in `web_fetch`'s `except` clauses. -/
inductive PyExn where
  | httpx (msg : List Char)
  | webFetch (msg : List Char)
  | value (msg : List Char)
deriving DecidableEq, Repr

/-- Python `int(str)`: optional surrounding whitespace, optional sign, digits
with single underscores strictly between digits.  Returns `none` when the
literal is invalid (Python raises `ValueError`). -/
def digitsRun : List Char → Nat → Option Nat
  | [], acc => some acc
  | c :: cs, acc =>
    if isDigitChar c then digitsRun cs (acc * 10 + (c.toNat - 48))
    else if c = chUnderscore then
      match cs with
      | d :: ds => if isDigitChar d then digitsRun ds (acc * 10 + (d.toNat - 48)) else none
      | [] => none
    else none

/-- Magnitude of a digit string (see `digitsRun`). -/
def pyIntCore : List Char → Option Nat
  | [] => none
  | c :: cs => if isDigitChar c then digitsRun cs (c.toNat - 48) else none

/-- Python `int(str)` including sign handling. -/
def pyInt (l : List Char) : Option Int :=
  let s := pyStrip l
  match s with
  | c :: cs =>
    if c = '-' then (pyIntCore cs).map (fun n => -(n : Int))
    else if c = '+' then (pyIntCore cs).map (fun n => (n : Int))
    else (pyIntCore s).map (fun n => (n : Int))
  | [] => none

/-- Message prefix `Content too large: `. -/
def ctlPre : List Char := "Content too large: ".toList

/-- Message suffix ` bytes`. -/
def bytesSuf : List Char := " bytes".toList

/-- Message rendered for a non-2xx status (models `str` of
`httpx.HTTPStatusError`; its exact text is not load-bearing). -/
def statusLine (s : Nat) : List Char := (Nat.repr s).toList

/-- Message of the `ValueError` raised by `int()` on a bad literal (its exact
text is not load-bearing). -/
def invalidLiteralMsg (l : List Char) : List Char := "invalid literal: ".toList ++ l

/-- `_fetch_url` applied to a network outcome: transport failures surface as
`httpx.HTTPError`; non-2xx responses raise via `raise_for_status`; a present,
non-empty `content-length` header is parsed and compared against the
1,000,000-byte cap before the body text is returned. -/
def fetch_url (net : Except (List Char) HttpResponse) : Except PyExn (List Char) :=
  match net with
  | .error m => .error (.httpx m)
  | .ok response =>
    if response.status < 200 ∨ 300 ≤ response.status then
      .error (.httpx (statusLine response.status))
    else
      match response.contentLengthHeader with
      | some content_length =>
        if content_length.isEmpty then .ok response.text
        else
          match pyInt content_length with
          | some n =>
            if 1000000 < n then .error (.webFetch (ctlPre ++ content_length ++ bytesSuf))
            else .ok response.text
          | none => .error (.value (invalidLiteralMsg content_length))
      | none => .ok response.text

/-- Message prefix of the `except httpx.HTTPError` clause. -/
def httpErrStr : List Char := "HTTP error: ".toList

/-- Message prefix of the blanket `except Exception` clause. -/
def fetchFailedStr : List Char := "Fetch failed: ".toList

/-- The two `except` clauses of `web_fetch`: `httpx.HTTPError` becomes
`HTTP error: {e}`, every other exception becomes `Fetch failed: {e}`. -/
def wrapExn : PyExn → List Char
  | .httpx m => httpErrStr ++ m
  | .webFetch m => fetchFailedStr ++ m
  | .value m => fetchFailedStr ++ m

/-- Extraction dispatch of `web_fetch` (lines 240-253): returns the content
and the actually-used mode. -/
def extractDispatch (u : List Char → List Char) (ext : Extractors) (mode : ExtractMode)
    (html_content : List Char) : List Char × ExtractMode :=
  match mode with
  | .raw => (html_content.take 50000, .raw)
  | .metadata => (extract_metadata u html_content, .metadata)
  | .markdown =>
    match extract_markdown ext.markitdown html_content with
    | some result => (result, .markdown)
    | none => (extract_article ext.trafilatura u html_content, .article)
  | .article => (extract_article ext.trafilatura u html_content, .article)

/-- `_enforce_rate_limit`: with `last` the stored timestamp and `now` the
current time, the new stored timestamp is the time after the (possibly empty)
sleep that restores the 3-second minimum interval. -/
def enforce_rate_limit (last now : Rat) : Rat :=
  if now - last < 3 then now + (3 - (now - last)) else now

/-- Validation message for an empty URL. -/
def urlEmptyMsg : List Char := "URL cannot be empty".toList

/-- Validation message for a bad scheme. -/
def urlSchemeMsg : List Char := "URL must start with http:// or https://".toList

/-- Literal `http://`. -/
def httpScheme : List Char := "http://".toList

/-- Literal `https://`. -/
def httpsScheme : List Char := "https://".toList

/-- Observable outcome of one `web_fetch` call: the result or the
`WebFetchError` message, the rate limiter's timestamp after the call, and
whether the network was consulted. -/
structure WebFetchOutput where
  result : Except (List Char) FetchResult
  last_request_time : Rat
  networkAttempted : Bool

/-- `web_fetch` of web_fetch.py: URL validation, optional rate limiting,
fetch, extraction dispatch, and exception wrapping. -/
def web_fetch (u : List Char → List Char) (ext : Extractors)
    (net : Except (List Char) HttpResponse) (url : List Char) (extract_mode : ExtractMode)
    (rate_limit : Bool) (last_request_time : Rat) (now : Rat) : WebFetchOutput :=
  if pyStrip url = [] then
    ⟨.error urlEmptyMsg, last_request_time, false⟩
  else if (startsWithBy charEq httpScheme url || startsWithBy charEq httpsScheme url) = false then
    ⟨.error urlSchemeMsg, last_request_time, false⟩
  else
    let st := if rate_limit then enforce_rate_limit last_request_time now else last_request_time
    match fetch_url net with
    | .ok html_content =>
      let ca := extractDispatch u ext extract_mode html_content
      ⟨.ok ⟨url, ca.1, ca.1.length, ca.2⟩, st, true⟩
    | .error e => ⟨.error (wrapExn e), st, true⟩

/-! ### `SearXNGClient.search` (web_search.py lines 98-181)

The backend is modelled as a function from the request parameters to either
a failure (transport / HTTP status, distinguished as in the `except`
clauses) or the list of raw result items of the JSON body.  The second
component of the model's output is the request actually sent (`none` when
validation failed before any request). -/

/-- A raw JSON result item: each field is `some` when the key is present. -/
structure RawItem where
  title : Option (List Char)
  url : Option (List Char)
  content : Option (List Char)
  publishedDate : Option (List Char)
deriving DecidableEq, Repr

/-- The `SearchResult` dataclass of web_search.py. -/
structure SearchResult where
  title : List Char
  url : List Char
  snippet : List Char
  published_date : Option (List Char)
deriving DecidableEq, Repr

/-- The query parameters of the single GET request. -/
structure SearchRequest where
  q : List Char
  format : List Char
  categories : List Char
  time_range : Option (List Char)
deriving DecidableEq, Repr

/-- Backend failures, distinguished as in the `except` clauses of `search`. -/
inductive BackendErr where
  | httpx (msg : List Char)
  | other (msg : List Char)
deriving DecidableEq, Repr

/-- Message prefix of the `except Exception` clause of `search`. -/
def searchFailedStr : List Char := "Search failed: ".toList

/-- The two `except` clauses of `search`. -/
def wrapSearchErr : BackendErr → List Char
  | .httpx m => httpErrStr ++ m
  | .other m => searchFailedStr ++ m

/-- Mapping of one raw item to a `SearchResult` (lines 172-179): missing
string fields default to the empty string, a missing `publishedDate` stays
absent. -/
def mkSearchResult (item : RawItem) : SearchResult :=
  ⟨item.title.getD [], item.url.getD [], item.content.getD [], item.publishedDate⟩

/-- One label of `DOMAIN_FILTER_PATTERN`:
`[a-zA-Z0-9]([a-zA-Z0-9\-]*[a-zA-Z0-9])?` — non-empty, letters/digits/hyphens
only, first and last character a letter or digit. -/
def labelOk (l : List Char) : Bool :=
  !l.isEmpty && l.all (fun c => isAlnumChar c || c == chDash) &&
    (match l.head? with | some c => isAlnumChar c | none => false) &&
    (match l.getLast? with | some c => isAlnumChar c | none => false)

/-- The body of `DOMAIN_FILTER_PATTERN` (label `(\.` label `)*`): since `.`
cannot occur inside a label, the regex matches exactly when every
dot-separated segment is a valid label. -/
def domainCore (s : List Char) : Bool := (s.splitOn chDot).all labelOk

/-- `DOMAIN_FILTER_PATTERN.match(s)` with the pattern's `^...$` anchoring:
Python's `$` also matches just before a single newline at the end of the
string, so a trailing newline is accepted. -/
def DOMAIN_FILTER_PATTERN_match (s : List Char) : Bool :=
  domainCore s || (s.getLast? == some chNl && domainCore s.dropLast)

/-- Modelled from the spec: the domain-filter grammar of spec §3 — an
optional string constrained to dot-separated labels of letters, digits and
hyphens, with no leading or trailing hyphen per label.  Used to compare the
spec's grammar against `DOMAIN_FILTER_PATTERN`. -/
def specDomainGrammar (s : List Char) : Bool := (s.splitOn chDot).all labelOk

/-- Python truthiness of the `domain_filter` argument (`None` and the empty
string are falsy). -/
def dfTruthy : Option (List Char) → Bool
  | none => false
  | some s => !s.isEmpty

/-- Literal `all_time`. -/
def allTimeStr : List Char := "all_time".toList

/-- Literal `day`. -/
def dayStr : List Char := "day".toList

/-- Literal `week`. -/
def weekStr : List Char := "week".toList

/-- Literal `month`. -/
def monthStr : List Char := "month".toList

/-- Literal `year`. -/
def yearStr : List Char := "year".toList

/-- `VALID_RECENCY_VALUES` of web_search.py. -/
def VALID_RECENCY_VALUES : List (List Char) := [allTimeStr, dayStr, weekStr, monthStr, yearStr]

/-- Membership test `recency in VALID_RECENCY_VALUES`. -/
def validRecencyCheck (r : List Char) : Bool := VALID_RECENCY_VALUES.contains r

/-- The `time_range_map` dict lookup (lines 142-149).  The final `none` arm
is unreachable after recency coercion (it would be a `KeyError` in Python). -/
def timeRangeMap (r : List Char) : Option (List Char) :=
  if r = allTimeStr then none
  else if r = dayStr then some dayStr
  else if r = weekStr then some weekStr
  else if r = monthStr then some monthStr
  else if r = yearStr then some yearStr
  else none

/-- Error message for a missing SearXNG URL. -/
def notConfiguredMsg : List Char := "SearXNG URL not configured (set SEARXNG_URL env var)".toList

/-- Error message for an empty query. -/
def emptyQueryMsg : List Char := "Search query cannot be empty".toList

/-- Error message for an invalid domain filter (names the filter). -/
def invalidDomainMsg (df : List Char) : List Char :=
  "Invalid domain_filter: '".toList ++ df ++
    "'. Must be a valid domain (e.g., 'wikipedia.org', 'gov').".toList

/-- Literal `site:`. -/
def sitePre : List Char := "site:".toList

/-- Literal `json`. -/
def jsonStr : List Char := "json".toList

/-- Literal `general`. -/
def generalStr : List Char := "general".toList

/-- `SearXNGClient.search`: configuration check, query/domain validation,
recency coercion, query composition, parameter mapping, request, and
response mapping.  Returns the result (or `WebSearchError` message) and the
request that was sent (`none` when validation failed first). -/
def search (clientUrl : List Char) (query : List Char) (max_results : Nat)
    (domain_filter : Option (List Char)) (recency : List Char)
    (backend : SearchRequest → Except BackendErr (List RawItem)) :
    Except (List Char) (List SearchResult) × Option SearchRequest :=
  if clientUrl = [] then (.error notConfiguredMsg, none)
  else if pyStrip query = [] then (.error emptyQueryMsg, none)
  else if dfTruthy domain_filter && !(DOMAIN_FILTER_PATTERN_match (domain_filter.getD [])) then
    (.error (invalidDomainMsg (domain_filter.getD [])), none)
  else
    let recency2 := if validRecencyCheck recency then recency else allTimeStr
    let search_query :=
      if dfTruthy domain_filter then sitePre ++ domain_filter.getD [] ++ chSp :: query
      else query
    let time_range := timeRangeMap recency2
    let params : SearchRequest := ⟨search_query, jsonStr, generalStr, time_range⟩
    match backend params with
    | .error e => (.error (wrapSearchErr e), some params)
    | .ok items => (.ok ((items.take max_results).map mkSearchResult), some params)

/-! ### Helper lemmas about the scanning primitives -/

/-- Every character is case-insensitively equal to itself. -/
theorem lowerEq_refl (c : Char) : lowerEq c c = true := by
  simp [lowerEq]

/-- Case-sensitive self-comparison. -/
theorem charEq_refl (c : Char) : charEq c c = true := by
  simp [charEq]

/-- `charEq` implies equality. -/
theorem eq_of_charEq (a b : Char) (h : charEq a b = true) : a = b := by
  simpa [charEq] using h

/-- Only `<` matches `<` case-insensitively. -/
theorem eq_of_lowerEq_lt (x : Char) (h : lowerEq chLt x = true) : x = chLt := by
  have h0 : isAsciiUpper chLt = false := by decide
  simp only [lowerEq, h0, Bool.false_and, Bool.or_false, Bool.false_or, Bool.or_eq_true,
    Bool.and_eq_true, beq_iff_eq] at h
  rcases h with h | ⟨h1, h2⟩
  · exact h.symm
  · exfalso
    have h3 : 65 ≤ x.toNat := by
      simp only [isAsciiUpper, Bool.and_eq_true, decide_eq_true_eq] at h1
      exact h1.1
    have h4 : chLt.toNat = 60 := by decide
    omega

/-- A pattern matches itself extended by anything, for a reflexive
comparison. -/
theorem startsWithBy_self_append (eqc : Char → Char → Bool) (p x : List Char)
    (h : ∀ c ∈ p, eqc c c = true) : startsWithBy eqc p (p ++ x) = true := by
  induction p with
  | nil => simp [startsWithBy]
  | cons c cs ih =>
    simp only [List.cons_append, startsWithBy, Bool.and_eq_true]
    exact ⟨h c (by simp), ih (fun d hd => h d (by simp [hd]))⟩

/-- A head mismatch refutes a `startsWithBy`. -/
theorem startsWithBy_head_false (eqc : Char → Char → Bool) (p c : Char) (ps cs : List Char)
    (h : eqc p c = false) : startsWithBy eqc (p :: ps) (c :: cs) = false := by
  simp [startsWithBy, h]

/-- Decomposition of a suffix of an append. -/
theorem suffix_append_cases {t x y : List Char} (h : t <:+ x ++ y) :
    t <:+ y ∨ ∃ s, s ≠ [] ∧ s <:+ x ∧ t = s ++ y := by
  induction x with
  | nil => exact Or.inl (by simpa using h)
  | cons a x' ih =>
    rw [List.cons_append] at h
    rcases List.suffix_cons_iff.mp h with h1 | h2
    · exact Or.inr ⟨a :: x', by simp, List.suffix_refl _, by simpa using h1⟩
    · rcases ih h2 with h3 | ⟨s, hs1, hs2, hs3⟩
      · exact Or.inl h3
      · exact Or.inr ⟨s, hs1, hs2.trans (List.suffix_cons a x'), hs3⟩

/-- The head of a non-empty suffix is an element. -/
theorem head_mem_of_suffix {t b : List Char} (h : t <:+ b) {c : Char} {cs : List Char}
    (ht : t = c :: cs) : c ∈ b := by
  subst ht
  exact h.subset (List.mem_cons_self c cs)

/-- Unfolding of one `subBlocksF` step. -/
theorem subBlocksF_succ (f : List Char → Option Nat) (repl : List Char) (fuel : Nat)
    (c : Char) (cs : List Char) :
    subBlocksF f repl (fuel + 1) (c :: cs) =
      match f (c :: cs) with
      | some (n + 1) => repl ++ subBlocksF f repl fuel (cs.drop n)
      | _ => c :: subBlocksF f repl fuel cs := rfl

/-- `subBlocksF` step when no match starts here. -/
theorem subBlocksF_succ_none (f : List Char → Option Nat) (repl : List Char) (fuel : Nat)
    (c : Char) (cs : List Char) (hf : f (c :: cs) = none) :
    subBlocksF f repl (fuel + 1) (c :: cs) = c :: subBlocksF f repl fuel cs := by
  rw [subBlocksF_succ, hf]

/-- `subBlocksF` step on a (never occurring) zero-length match. -/
theorem subBlocksF_succ_zero (f : List Char → Option Nat) (repl : List Char) (fuel : Nat)
    (c : Char) (cs : List Char) (hf : f (c :: cs) = some 0) :
    subBlocksF f repl (fuel + 1) (c :: cs) = c :: subBlocksF f repl fuel cs := by
  rw [subBlocksF_succ, hf]

/-- `subBlocksF` step on a match of length `n + 1`. -/
theorem subBlocksF_succ_some (f : List Char → Option Nat) (repl : List Char) (fuel : Nat)
    (c : Char) (cs : List Char) (n : Nat) (hf : f (c :: cs) = some (n + 1)) :
    subBlocksF f repl (fuel + 1) (c :: cs) = repl ++ subBlocksF f repl fuel (cs.drop n) := by
  rw [subBlocksF_succ, hf]

/-- A lazy search over `b ++ pat ++ c` ends exactly after `pat` when no
occurrence starts inside `b`. -/
theorem firstEndBy_append (eqc : Char → Char → Bool) (pat b c : List Char)
    (hpat : pat ≠ [])
    (hrefl : startsWithBy eqc pat (pat ++ c) = true)
    (h : ∀ t, t ≠ [] → t <:+ b → startsWithBy eqc pat (t ++ (pat ++ c)) = false) :
    firstEndBy eqc pat (b ++ (pat ++ c)) = some (b.length + pat.length) := by
  induction b with
  | nil =>
    cases pat with
    | nil => exact absurd rfl hpat
    | cons p ps =>
      simp only [List.nil_append, List.cons_append] at hrefl ⊢
      simp [firstEndBy, hrefl]
  | cons x b' ih =>
    have hx : startsWithBy eqc pat (x :: (b' ++ (pat ++ c))) = false := by
      have := h (x :: b') (by simp) (List.suffix_refl _)
      simpa using this
    rw [List.cons_append]
    have hstep : firstEndBy eqc pat (x :: (b' ++ (pat ++ c)))
        = (firstEndBy eqc pat (b' ++ (pat ++ c))).map (fun z => z + 1) := by
      simp [firstEndBy, List.append_eq, hx]
    rw [hstep, ih (fun t h1 h2 => h t h1 (h2.trans (List.suffix_cons x b')))]
    simp [Nat.add_right_comm]

/-- The fuel argument of `subBlocksF` is irrelevant as long as it covers the
length of the list. -/
theorem subBlocksF_fuel (f : List Char → Option Nat) (repl : List Char) :
    ∀ (n1 : Nat) (l : List Char) (n2 : Nat), l.length ≤ n1 → l.length ≤ n2 →
      subBlocksF f repl n1 l = subBlocksF f repl n2 l := by
  intro n1
  induction n1 with
  | zero =>
    intro l n2 h1 h2
    have hl : l = [] := by cases l with | nil => rfl | cons a as => simp at h1
    subst hl
    cases n2 <;> rfl
  | succ m ih =>
    intro l n2 h1 h2
    cases l with
    | nil => cases n2 <;> rfl
    | cons c cs =>
      cases n2 with
      | zero => simp at h2
      | succ k =>
        have h1' : cs.length ≤ m := by simp only [List.length_cons] at h1; omega
        have h2' : cs.length ≤ k := by simp only [List.length_cons] at h2; omega
        rcases hf : f (c :: cs) with _ | n
        · rw [subBlocksF_succ_none f repl m c cs hf, subBlocksF_succ_none f repl k c cs hf,
            ih cs k h1' h2']
        · cases n with
          | zero =>
            rw [subBlocksF_succ_zero f repl m c cs hf, subBlocksF_succ_zero f repl k c cs hf,
              ih cs k h1' h2']
          | succ n' =>
            rw [subBlocksF_succ_some f repl m c cs n' hf, subBlocksF_succ_some f repl k c cs n' hf]
            have hd : (cs.drop n').length ≤ cs.length := by
              rw [List.length_drop]; omega
            rw [ih (cs.drop n') k (by omega) (by omega)]

/-- A prefix in which no match starts is copied verbatim by `subBlocksF`. -/
theorem subBlocksF_append_none (f : List Char → Option Nat) (repl : List Char)
    (a X : List Char)
    (h : ∀ t, t ≠ [] → t <:+ a → f (t ++ X) = none) :
    ∀ n, a.length + X.length ≤ n →
      subBlocksF f repl n (a ++ X) = a ++ subBlocksF f repl (n - a.length) X := by
  induction a with
  | nil => intro n hn; simp
  | cons c a' ih =>
    intro n hn
    cases n with
    | zero => simp at hn
    | succ m =>
      have hf : f (c :: (a' ++ X)) = none := by
        have := h (c :: a') (by simp) (List.suffix_refl _)
        simpa using this
      rw [List.cons_append, subBlocksF_succ_none f repl m c (a' ++ X) hf]
      have hn' : a'.length + X.length ≤ m := by
        simp only [List.length_cons] at hn; omega
      rw [ih (fun t h1 h2 => h t h1 (h2.trans (List.suffix_cons c a'))) m hn']
      simp only [List.cons_append, List.length_cons, List.cons.injEq, true_and]
      congr 2
      omega

/-- A pattern that starts somewhere in a suffix occurs in the list. -/
theorem occursIn_of_suffix (pat t b : List Char) (hsf : t <:+ b)
    (hst : startsWithBy charEq pat t = true) : occursIn pat b = true := by
  induction b with
  | nil =>
    have ht : t = [] := List.suffix_nil.mp hsf
    subst ht
    cases pat with
    | nil => rfl
    | cons p ps => simp [startsWithBy] at hst
  | cons x b' ih =>
    rcases List.suffix_cons_iff.mp hsf with h1 | h2
    · subst h1; simp [occursIn, hst]
    · simp [occursIn, ih h2]

/-- A list containing the pattern between two parts contains the pattern. -/
theorem occursIn_append_self (pat x y : List Char) : occursIn pat (x ++ (pat ++ y)) = true := by
  induction x with
  | nil =>
    simp only [List.nil_append]
    cases pat with
    | nil => cases y <;> simp [occursIn, startsWithBy]
    | cons p ps =>
      rw [List.cons_append]
      simp only [occursIn, Bool.or_eq_true]
      refine Or.inl ?_
      have := startsWithBy_self_append charEq (p :: ps) y (fun c _ => charEq_refl c)
      simpa using this
  | cons a x' ih => simp [occursIn, ih]

/-- A tag-block pattern cannot match at a character other than `<`. -/
theorem tagBlockLen_none_of_head (ot ct o2 : List Char) (hot : ot = chLt :: o2)
    (x : Char) (hx : x ≠ chLt) (xs : List Char) :
    tagBlockLen lowerEq ot ct (x :: xs) = none := by
  have hs : startsWithBy lowerEq ot (x :: xs) = false := by
    rw [hot]
    apply startsWithBy_head_false
    cases hle : lowerEq chLt x
    · rfl
    · exact absurd (eq_of_lowerEq_lt x hle) hx
  simp [tagBlockLen, hs]

/-- The comment pattern cannot match at a character other than `<`. -/
theorem commentLen_none_of_head (x : Char) (hx : x ≠ chLt) (xs : List Char) :
    commentLen (x :: xs) = none := by
  have hs : startsWithBy charEq commentOpen (x :: xs) = false := by
    have hco : commentOpen = chLt :: chBang :: chDash :: chDash :: [] := by decide
    rw [hco]
    apply startsWithBy_head_false
    cases hle : charEq chLt x
    · rfl
    · exact absurd (eq_of_charEq chLt x hle).symm hx
  simp [commentLen, hs]

/-- The tag-block removal pass deletes a whole `open…>body</close>` block:
with no `<` in the preceding text `a` and none in the body `b`, the pass
maps `a ++ <open>b</close> ++ c` to `a` followed by the pass applied to
`c`. -/
theorem subBlocks_tagBlock_delete (ot ct o2 c2 : List Char)
    (hot : ot = chLt :: o2) (hct : ct = chLt :: c2)
    (a b c : List Char) (ha : chLt ∉ a) (hb : chLt ∉ b) :
    subBlocks (tagBlockLen lowerEq ot ct) [] (a ++ ((ot ++ [chGt]) ++ (b ++ (ct ++ c))))
      = a ++ subBlocks (tagBlockLen lowerEq ot ct) [] c := by
  set f := tagBlockLen lowerEq ot ct with hf
  set R := (ot ++ [chGt]) ++ (b ++ (ct ++ c)) with hR
  -- no match can start inside a character list free of `<`
  have hnolt : ∀ (p X : List Char), chLt ∉ p → ∀ t, t ≠ [] → t <:+ p → f (t ++ X) = none := by
    intro p X hp t ht hsf
    cases t with
    | nil => exact absurd rfl ht
    | cons t0 ts =>
      have ht0 : t0 ∈ p := head_mem_of_suffix hsf rfl
      have hne : t0 ≠ chLt := fun hh => hp (hh ▸ ht0)
      rw [List.cons_append]
      exact tagBlockLen_none_of_head ot ct o2 hot t0 hne (ts ++ X)
  -- the match at the head of R
  have hswR : startsWithBy lowerEq ot R = true := by
    have : R = ot ++ (chGt :: (b ++ (ct ++ c))) := by simp [hR]
    rw [this]
    exact startsWithBy_self_append lowerEq ot _ (fun d _ => lowerEq_refl d)
  have hdrop1 : R.drop ot.length = chGt :: (b ++ (ct ++ c)) := by
    have : R = ot ++ (chGt :: (b ++ (ct ++ c))) := by simp [hR]
    rw [this, List.drop_left]
  have hdrop2 : R.drop (ot.length + 1) = b ++ (ct ++ c) := by
    have : R = (ot ++ [chGt]) ++ (b ++ (ct ++ c)) := hR
    rw [this, List.drop_left' (by simp)]
  have hfe : firstEndBy lowerEq ct (b ++ (ct ++ c)) = some (b.length + ct.length) := by
    apply firstEndBy_append
    · rw [hct]; simp
    · exact startsWithBy_self_append lowerEq ct c (fun d _ => lowerEq_refl d)
    · intro t ht hsf
      cases t with
      | nil => exact absurd rfl ht
      | cons t0 ts =>
        have ht0 : t0 ∈ b := head_mem_of_suffix hsf rfl
        have hne : t0 ≠ chLt := fun hh => hb (hh ▸ ht0)
        rw [List.cons_append, hct]
        apply startsWithBy_head_false
        cases hle : lowerEq chLt t0
        · rfl
        · exact absurd (eq_of_lowerEq_lt t0 hle) hne
  have hg : gtSplit (chGt :: (b ++ (ct ++ c))) = some 1 := by simp [gtSplit]
  have hfR : f R = some (ot.length + 1 + (b.length + ct.length)) := by
    rw [hf]
    simp only [tagBlockLen, hswR, if_true, hdrop1, hg, hdrop2, hfe]
  -- peel off a
  rw [show subBlocks f [] (a ++ R) = subBlocksF f [] ((a ++ R).length) (a ++ R) from rfl]
  rw [subBlocksF_append_none f [] a R (hnolt a R ha) ((a ++ R).length) (by simp)]
  congr 1
  have hlen1 : (a ++ R).length - a.length = R.length := by simp
  rw [hlen1]
  -- reduce the match at the head of R
  have hRc : R = chLt :: ((o2 ++ [chGt]) ++ (b ++ (ct ++ c))) := by
    rw [hR, hot]; simp
  set Rt := (o2 ++ [chGt]) ++ (b ++ (ct ++ c)) with hRt
  have hfR2 : f (chLt :: Rt) = some ((ot.length + (b.length + ct.length)) + 1) := by
    rw [← hRc, hfR]
    congr 1
    omega
  have hRlen : R.length = Rt.length + 1 := by rw [hRc]; simp
  rw [hRlen, hRc, subBlocksF_succ_some f [] Rt.length chLt Rt _ hfR2]
  -- the remainder after the match is exactly c
  have hdropc : Rt.drop (ot.length + (b.length + ct.length)) = c := by
    have h1 : Rt = ((o2 ++ [chGt]) ++ (b ++ ct)) ++ c := by rw [hRt]; simp
    rw [h1]
    apply List.drop_left'
    simp [hot]
    omega
  rw [hdropc]
  have hcle : c.length ≤ Rt.length := by
    conv_rhs => rw [show Rt = ((o2 ++ [chGt]) ++ (b ++ ct)) ++ c from by rw [hRt]; simp]
    simp
    omega
  rw [subBlocksF_fuel f [] Rt.length c c.length hcle (le_refl _)]
  rfl

/-- No occurrence of `-->` can start inside `b` or straddle its end when
`-->` does not occur in `b` (the pattern's third character `>` rules out
straddles). -/
theorem commentClose_no_start (b c : List Char) (hb : occursIn commentClose b = false) :
    ∀ t, t ≠ [] → t <:+ b → startsWithBy charEq commentClose (t ++ (commentClose ++ c)) = false := by
  have hcc : commentClose = chDash :: chDash :: chGt :: [] := by decide
  have hgd : charEq chGt chDash = false := by decide
  intro t ht hsf
  cases t with
  | nil => exact absurd rfl ht
  | cons t0 ts =>
    cases ts with
    | nil =>
      rw [hcc]
      simp [startsWithBy, hgd]
    | cons t1 ts2 =>
      cases ts2 with
      | nil =>
        rw [hcc]
        simp [startsWithBy, hgd]
      | cons t2 ts3 =>
        by_contra hcon
        rw [Bool.not_eq_false] at hcon
        rw [hcc] at hcon
        simp only [List.cons_append, startsWithBy, Bool.and_eq_true] at hcon
        obtain ⟨h0, h1, h2, _⟩ := hcon
        have e0 : t0 = chDash := (eq_of_charEq _ _ h0).symm
        have e1 : t1 = chDash := (eq_of_charEq _ _ h1).symm
        have e2 : t2 = chGt := (eq_of_charEq _ _ h2).symm
        have hst : startsWithBy charEq commentClose (t0 :: t1 :: t2 :: ts3) = true := by
          rw [hcc, e0, e1, e2]
          simp [startsWithBy, charEq_refl]
        have := occursIn_of_suffix commentClose (t0 :: t1 :: t2 :: ts3) b hsf hst
        rw [this] at hb
        exact Bool.true_eq_false.mp hb

/-- The comment removal pass deletes a whole `<!--body-->` block: with no
`<` in the preceding text `a` and no `-->` in the body `b`, the pass maps
`a ++ <!--b--> ++ c` to `a` followed by the pass applied to `c`. -/
theorem subBlocks_comment_delete (a b c : List Char) (ha : chLt ∉ a)
    (hb : occursIn commentClose b = false) :
    subBlocks commentLen [] (a ++ (commentOpen ++ (b ++ (commentClose ++ c))))
      = a ++ subBlocks commentLen [] c := by
  set R := commentOpen ++ (b ++ (commentClose ++ c)) with hR
  have hnolt : ∀ (p X : List Char), chLt ∉ p → ∀ t, t ≠ [] → t <:+ p →
      commentLen (t ++ X) = none := by
    intro p X hp t ht hsf
    cases t with
    | nil => exact absurd rfl ht
    | cons t0 ts =>
      have ht0 : t0 ∈ p := head_mem_of_suffix hsf rfl
      have hne : t0 ≠ chLt := fun hh => hp (hh ▸ ht0)
      rw [List.cons_append]
      exact commentLen_none_of_head t0 hne (ts ++ X)
  have hswR : startsWithBy charEq commentOpen R = true := by
    rw [hR]
    exact startsWithBy_self_append charEq commentOpen _ (fun d _ => charEq_refl d)
  have hdrop4 : R.drop 4 = b ++ (commentClose ++ c) := by
    rw [hR]
    exact List.drop_left' (by decide)
  have hfe : firstEndBy charEq commentClose (b ++ (commentClose ++ c))
      = some (b.length + commentClose.length) := by
    apply firstEndBy_append
    · decide
    · exact startsWithBy_self_append charEq commentClose c (fun d _ => charEq_refl d)
    · exact commentClose_no_start b c hb
  have hfR : commentLen R = some (4 + (b.length + commentClose.length)) := by
    simp only [commentLen, hswR, if_true, hdrop4, hfe]
  -- peel off a
  rw [show subBlocks commentLen [] (a ++ R)
      = subBlocksF commentLen [] ((a ++ R).length) (a ++ R) from rfl]
  rw [subBlocksF_append_none commentLen [] a R (hnolt a R ha) ((a ++ R).length) (by simp)]
  congr 1
  have hlen1 : (a ++ R).length - a.length = R.length := by simp
  rw [hlen1]
  have hco : commentOpen = chLt :: chBang :: chDash :: chDash :: [] := by decide
  have hRc : R = chLt :: chBang :: chDash :: chDash :: (b ++ (commentClose ++ c)) := by
    rw [hR, hco]
    rfl
  set Rt := chBang :: chDash :: chDash :: (b ++ (commentClose ++ c)) with hRt
  have hfR2 : commentLen (chLt :: Rt) = some ((3 + (b.length + commentClose.length)) + 1) := by
    rw [← hRc, hfR]
    congr 1
    omega
  have hRlen : R.length = Rt.length + 1 := by rw [hRc]; simp
  rw [hRlen, hRc, subBlocksF_succ_some commentLen [] Rt.length chLt Rt _ hfR2]
  have hsplit : Rt = (chBang :: chDash :: chDash :: (b ++ commentClose)) ++ c := by
    rw [hRt]
    simp
  have hdropc : Rt.drop (3 + (b.length + commentClose.length)) = c := by
    rw [hsplit]
    apply List.drop_left'
    simp
    omega
  rw [hdropc]
  have hcle : c.length ≤ Rt.length := by
    conv_rhs => rw [hsplit]
    simp
    omega
  rw [subBlocksF_fuel commentLen [] Rt.length c c.length hcle (le_refl _)]
  rfl

/-- A key of `dictInsert k v d` is `k` or a key of `d`. -/
theorem mem_keys_dictInsert (k v x : List Char) (d : List (List Char × List Char))
    (hx : x ∈ (dictInsert k v d).map Prod.fst) : x = k ∨ x ∈ d.map Prod.fst := by
  induction d with
  | nil => simpa [dictInsert] using hx
  | cons kv rest ih =>
    obtain ⟨k2, v2⟩ := kv
    by_cases h : k2 = k
    · simp only [dictInsert, h, if_true, List.map_cons, List.mem_cons] at hx
      rcases hx with h1 | h1
      · exact Or.inl (h ▸ h1)
      · exact Or.inr (by simp [h1])
    · simp only [dictInsert, h, if_false, List.map_cons, List.mem_cons] at hx
      rcases hx with h1 | h1
      · exact Or.inr (by simp [h1])
      · rcases ih h1 with h2 | h2
        · exact Or.inl h2
        · exact Or.inr (by simp [h2])

/-- `dictInsert` keeps the keys duplicate-free. -/
theorem dictInsert_keys_nodup (k v : List Char) (d : List (List Char × List Char))
    (h : (d.map Prod.fst).Nodup) : ((dictInsert k v d).map Prod.fst).Nodup := by
  induction d with
  | nil => simp [dictInsert]
  | cons kv rest ih =>
    obtain ⟨k2, v2⟩ := kv
    simp only [List.map_cons, List.nodup_cons] at h
    by_cases hk : k2 = k
    · simp only [dictInsert, hk, if_true, List.map_cons, List.nodup_cons]
      exact ⟨hk ▸ h.1, h.2⟩
    · simp only [dictInsert, hk, if_false, List.map_cons, List.nodup_cons]
      refine ⟨fun hmem => ?_, ih h.2⟩
      rcases mem_keys_dictInsert k v k2 rest hmem with h1 | h1
      · exact hk h1
      · exact h.1 h1

/-- Folding `dictInsert` over any pair list keeps the keys
duplicate-free. -/
theorem foldl_dictInsert_keys_nodup (g : List Char × List Char → List Char × List Char)
    (pairs : List (List Char × List Char)) :
    ∀ d : List (List Char × List Char), (d.map Prod.fst).Nodup →
      ((pairs.foldl (fun acc pv => dictInsert (g pv).1 (g pv).2 acc) d).map Prod.fst).Nodup := by
  induction pairs with
  | nil => intro d h; simpa using h
  | cons pv rest ih =>
    intro d h
    simp only [List.foldl_cons]
    exact ih _ (dictInsert_keys_nodup (g pv).1 (g pv).2 d h)

/-! ### Claim theorems -/

/-- Truncation step of `_regex_extract` bounds the output length. -/
theorem truncStep_length (t : List Char) :
    (if 20000 < t.length then t.take 20000 ++ ellipsisMarker else t).length ≤ 20003 := by
  have hm : ellipsisMarker.length = 3 := by decide
  by_cases h : 20000 < t.length
  · rw [if_pos h]
    simp only [List.length_append, List.length_take, hm]
    omega
  · rw [if_neg h]
    omega

/-- C3: for every input (including malformed HTML) and every entity decoder,
`_regex_extract` returns (it is a total function of the model) and its output
has length at most 20003 characters: at most 20000 characters of extracted
text plus the 3-character ellipsis marker appended only on truncation. -/
theorem C3_regex_extract_length (unescape : List Char → List Char) (html_content : List Char) :
    (regex_extract unescape html_content).length ≤ 20003 := by
  unfold regex_extract
  exact truncStep_length _

set_option maxRecDepth 20000 in
/-- C4 counterexample: on the input `<script>x</script>x` the script block's
body `x` also occurs outside the block, so the extractor's output (`x`)
contains, verbatim, the body of a `<script>...</script>` block that was
present in the input — refuting the claim that the output never contains
such a body. -/
theorem C4_counterexample :
    regex_extract (fun l => l) (("<script>x</script>x").toList) = ("x").toList ∧
    occursIn (("x").toList) (regex_extract (fun l => l) (("<script>x</script>x").toList)) = true := by
  constructor
  · decide
  · decide

/-- C4 (amended): each removal pass of `_regex_extract` deletes every closed
block it matches in its entirety — deleting the whole block from the input
leaves exactly the surrounding text: for text `a` before the block and block
body `b` containing no `<` (and, for comments, no `-->` in the body), the
script pass maps `a ++ "<script>" ++ b ++ "</script>" ++ c` to
`a ++` (pass applied to `c`), and likewise for the style and comment passes.
Text from inside a block therefore never survives its pass; the output can
still contain a block's body when the same text also occurs outside the
block. -/
theorem C4_block_deletion (a b c : List Char) (ha : chLt ∉ a) (hb : chLt ∉ b)
    (hb2 : occursIn commentClose b = false) :
    (subBlocks scriptLen [] (a ++ ((scriptOpen ++ [chGt]) ++ (b ++ (scriptClose ++ c))))
        = a ++ subBlocks scriptLen [] c) ∧
    (subBlocks styleLen [] (a ++ ((styleOpen ++ [chGt]) ++ (b ++ (styleClose ++ c))))
        = a ++ subBlocks styleLen [] c) ∧
    (subBlocks commentLen [] (a ++ (commentOpen ++ (b ++ (commentClose ++ c))))
        = a ++ subBlocks commentLen [] c) := by
  refine ⟨?_, ?_, ?_⟩
  · exact subBlocks_tagBlock_delete scriptOpen scriptClose (("script").toList) (("/script>").toList)
      (by decide) (by decide) a b c ha hb
  · exact subBlocks_tagBlock_delete styleOpen styleClose (("style").toList) (("/style>").toList)
      (by decide) (by decide) a b c ha hb
  · exact subBlocks_comment_delete a b c ha hb2

set_option maxRecDepth 20000 in
/-- C4 witness: the deletion theorem applied at a concrete input. -/
theorem C4_block_deletion_witness :
    (chLt ∉ (("pre ").toList) ∧ chLt ∉ (("body").toList) ∧
      occursIn commentClose (("body").toList) = false) ∧
    subBlocks scriptLen []
        ((("pre ").toList) ++ ((scriptOpen ++ [chGt]) ++ ((("body").toList) ++ (scriptClose ++ (("post").toList)))))
      = (("pre ").toList) ++ subBlocks scriptLen [] (("post").toList) :=
  ⟨⟨by decide, by decide, by decide⟩,
    (C4_block_deletion (("pre ").toList) (("body").toList) (("post").toList)
      (by decide) (by decide) (by decide)).1⟩

set_option maxRecDepth 20000 in
/-- C1 counterexample: a document repeating `og:title` produces a single
`og_title` line holding the last match's value, not one line per match
(`og_title: A` and `og_title: B`) as the claim states — the dict keyed on
`og_{prop}` collapses repeats. -/
theorem C1_counterexample :
    extract_metadata (fun l => l)
        (("<meta property=\"og:title\" content=\"A\"><meta property=\"og:title\" content=\"B\">").toList)
      = ("og_title: B").toList ∧
    extract_metadata (fun l => l)
        (("<meta property=\"og:title\" content=\"A\"><meta property=\"og:title\" content=\"B\">").toList)
      ≠ ("og_title: A\nog_title: B").toList := by
  constructor
  · decide
  · decide

set_option maxRecDepth 20000 in
/-- C1 (amended): the metadata extractor emits at most one `og_X` line per
distinct property name `X`: a repeated og property is collapsed into a single
line that sits at the position of the first occurrence and carries the last
occurrence's value (Python dict-assignment semantics).  Concretely, repeating
`og:title` around an `og:image` yields `og_title: <last>` followed by
`og_image: ...`; and in general the keys of the og fold are
duplicate-free. -/
theorem C1_og_collapsed :
    (extract_metadata (fun l => l)
        (("<meta property=\"og:title\" content=\"A\"><meta property=\"og:image\" content=\"I\"><meta property=\"og:title\" content=\"B\">").toList)
      = ("og_title: B\nog_image: I").toList) ∧
    (∀ (u : List Char → List Char) (pairs d : List (List Char × List Char)),
      (d.map Prod.fst).Nodup →
      ((pairs.foldl (fun acc pv => dictInsert (ogPre ++ pv.1) (u (pyStrip pv.2)) acc) d).map
          Prod.fst).Nodup) := by
  constructor
  · decide
  · intro u pairs d h
    exact foldl_dictInsert_keys_nodup (fun pv => (ogPre ++ pv.1, u (pyStrip pv.2))) pairs d h

/-- C1 witness: the collapse theorem's fold applied at a concrete input. -/
theorem C1_og_collapsed_witness :
    (([] : List (List Char × List Char)).map Prod.fst).Nodup ∧
    ((([(("title").toList, (" A ").toList), (("title").toList, ("B").toList)]).foldl
        (fun acc pv => dictInsert (ogPre ++ pv.1) ((fun l => l) (pyStrip pv.2)) acc)
        ([] : List (List Char × List Char))).map Prod.fst).Nodup :=
  ⟨by decide,
    C1_og_collapsed.2 (fun l => l)
      [(("title").toList, (" A ").toList), (("title").toList, ("B").toList)] [] (by decide)⟩

/-- C2 counterexample: for a 200 response carrying `Content-Length: 1000001`,
the error surfaced by `web_fetch` is in the generic `Fetch failed:` class
(the blanket `except Exception` re-wraps the size error), not a
`ContentTooLarge` error distinct from it. -/
theorem C2_counterexample :
    (web_fetch (fun l => l) ⟨fun _ => none, fun _ => none⟩
        (.ok ⟨200, some (("1000001").toList), ("hello").toList⟩)
        (("http://a").toList) .raw false 0 0).result
      = .error (("Fetch failed: Content too large: 1000001 bytes").toList) ∧
    startsWithBy charEq fetchFailedStr
      (("Fetch failed: Content too large: 1000001 bytes").toList) = true ∧
    startsWithBy charEq ctlPre
      (("Fetch failed: Content too large: 1000001 bytes").toList) = false := by
  refine ⟨by rfl, by decide, by decide⟩

/-- C2 (amended): when a response's `Content-Length` header parses to a value
exceeding 1,000,000, `_fetch_url` raises the distinct
`Content too large: ... bytes` error before the body text is used, and this
outcome does not depend on the body; but `web_fetch`'s blanket
`except Exception` clause re-wraps it, so the error surfaced to the caller is
`Fetch failed: Content too large: ... bytes` — in the generic `Fetch failed`
class, not a class distinct from it. -/
theorem C2_content_too_large (u : List Char → List Char) (ext : Extractors)
    (status : Nat) (cl body : List Char) (n : Int) (url : List Char) (mode : ExtractMode)
    (rl : Bool) (st now : Rat)
    (hst1 : 200 ≤ status) (hst2 : status < 300)
    (hcl : cl ≠ []) (hn : pyInt cl = some n) (hbig : 1000000 < n)
    (hu1 : pyStrip url ≠ [])
    (hu2 : (startsWithBy charEq httpScheme url || startsWithBy charEq httpsScheme url) = true) :
    (∀ body2 : List Char,
      fetch_url (.ok ⟨status, some cl, body2⟩) = .error (.webFetch (ctlPre ++ cl ++ bytesSuf))) ∧
    (∀ body2 : List Char,
      (web_fetch u ext (.ok ⟨status, some cl, body2⟩) url mode rl st now).result
        = .error (fetchFailedStr ++ (ctlPre ++ cl ++ bytesSuf))) ∧
    (web_fetch u ext (.ok ⟨status, some cl, body⟩) url mode rl st now).result
      = .error (fetchFailedStr ++ (ctlPre ++ cl ++ bytesSuf)) := by
  have hclE : cl.isEmpty = false := by
    cases cl with
    | nil => exact absurd rfl hcl
    | cons x xs => rfl
  have hc1 : ¬(status < 200 ∨ 300 ≤ status) := by omega
  have hfu : ∀ body2 : List Char,
      fetch_url (.ok ⟨status, some cl, body2⟩) = .error (.webFetch (ctlPre ++ cl ++ bytesSuf)) := by
    intro body2
    simp only [fetch_url, hc1, if_false, hclE, hn, hbig, if_true, Bool.false_eq_true]
  have hwf : ∀ body2 : List Char,
      (web_fetch u ext (.ok ⟨status, some cl, body2⟩) url mode rl st now).result
        = .error (fetchFailedStr ++ (ctlPre ++ cl ++ bytesSuf)) := by
    intro body2
    rw [web_fetch, if_neg hu1, if_neg (by simp [hu2])]
    simp only [hfu body2, wrapExn]
  exact ⟨hfu, hwf, hwf body⟩

/-- C2 witness: the amended theorem applied at a concrete response. -/
theorem C2_content_too_large_witness :
    (200 ≤ 200 ∧ 200 < 300 ∧ ("1000001").toList ≠ [] ∧
      pyInt (("1000001").toList) = some 1000001 ∧ (1000000 : Int) < 1000001 ∧
      pyStrip (("http://a").toList) ≠ [] ∧
      (startsWithBy charEq httpScheme (("http://a").toList)
        || startsWithBy charEq httpsScheme (("http://a").toList)) = true) ∧
    (web_fetch (fun l => l) ⟨fun _ => none, fun _ => none⟩
        (.ok ⟨200, some (("1000001").toList), ("hello").toList⟩)
        (("http://a").toList) .raw false 0 0).result
      = .error (fetchFailedStr ++ (ctlPre ++ (("1000001").toList) ++ bytesSuf)) :=
  ⟨⟨by decide, by decide, by decide, by decide, by decide, by decide, by decide⟩,
    (C2_content_too_large (fun l => l) ⟨fun _ => none, fun _ => none⟩ 200
      (("1000001").toList) (("hello").toList) 1000001 (("http://a").toList) .raw false 0 0
      (by decide) (by decide) (by decide) (by decide) (by decide) (by decide) (by decide)).2.2⟩

/-- C5: on a successful fetch in markdown mode, if the markdown delegate
yields nothing the returned result uses the article extractor and reports
`extract_mode = article` (never `markdown`); if the delegate yields `t`, the
result reports `extract_mode = markdown` with `t` truncated to 100000
characters plus the truncation marker when exceeded. -/
theorem C5_markdown_fallback (u : List Char → List Char) (ext : Extractors)
    (net : Except (List Char) HttpResponse) (url : List Char) (rl : Bool) (st now : Rat)
    (html : List Char)
    (hu1 : pyStrip url ≠ [])
    (hu2 : (startsWithBy charEq httpScheme url || startsWithBy charEq httpsScheme url) = true)
    (hnet : fetch_url net = .ok html) :
    (ext.markitdown html = none →
      (web_fetch u ext net url .markdown rl st now).result
        = .ok ⟨url, extract_article ext.trafilatura u html,
            (extract_article ext.trafilatura u html).length, .article⟩) ∧
    (∀ t : List Char, ext.markitdown html = some t →
      (web_fetch u ext net url .markdown rl st now).result
        = .ok ⟨url, (if 100000 < t.length then t.take 100000 ++ truncMarker else t),
            (if 100000 < t.length then t.take 100000 ++ truncMarker else t).length, .markdown⟩) := by
  constructor
  · intro hmd
    rw [web_fetch, if_neg hu1, if_neg (by simp [hu2])]
    simp only [hnet, extractDispatch, extract_markdown, hmd]
  · intro t hmd
    rw [web_fetch, if_neg hu1, if_neg (by simp [hu2])]
    simp only [hnet, extractDispatch, extract_markdown, hmd]

/-- C5 witness: both delegate outcomes at a concrete fetch. -/
theorem C5_markdown_fallback_witness :
    (pyStrip (("http://a").toList) ≠ [] ∧
      (startsWithBy charEq httpScheme (("http://a").toList)
        || startsWithBy charEq httpsScheme (("http://a").toList)) = true ∧
      fetch_url (.ok ⟨200, none, ("<p>h</p>").toList⟩) = .ok (("<p>h</p>").toList)) ∧
    (web_fetch (fun l => l) ⟨fun _ => none, fun _ => none⟩
        (.ok ⟨200, none, ("<p>h</p>").toList⟩) (("http://a").toList) .markdown false 0 0).result
      = .ok ⟨("http://a").toList,
          extract_article (fun _ => none) (fun l => l) (("<p>h</p>").toList),
          (extract_article (fun _ => none) (fun l => l) (("<p>h</p>").toList)).length, .article⟩ ∧
    (web_fetch (fun l => l) ⟨fun _ => some (("# h").toList), fun _ => none⟩
        (.ok ⟨200, none, ("<p>h</p>").toList⟩) (("http://a").toList) .markdown false 0 0).result
      = .ok ⟨("http://a").toList,
          (if 100000 < (("# h").toList).length
            then (("# h").toList).take 100000 ++ truncMarker else (("# h").toList)),
          (if 100000 < (("# h").toList).length
            then (("# h").toList).take 100000 ++ truncMarker else (("# h").toList)).length,
          .markdown⟩ :=
  ⟨⟨by decide, by decide, by rfl⟩,
    (C5_markdown_fallback (fun l => l) ⟨fun _ => none, fun _ => none⟩
        (.ok ⟨200, none, ("<p>h</p>").toList⟩) (("http://a").toList) false 0 0
        (("<p>h</p>").toList) (by decide) (by decide) (by rfl)).1 rfl,
    (C5_markdown_fallback (fun l => l) ⟨fun _ => some (("# h").toList), fun _ => none⟩
        (.ok ⟨200, none, ("<p>h</p>").toList⟩) (("http://a").toList) false 0 0
        (("<p>h</p>").toList) (by decide) (by decide) (by rfl)).2 (("# h").toList) rfl⟩

/-- C6: an empty (or whitespace-only) URL fails with the `URL cannot be
empty` error (which mentions emptiness) and a URL not starting with
`http://` or `https://` fails with the scheme error (which names the
scheme); in both cases the whole output shows the network untouched
(`networkAttempted = false`) and the rate-limiter timestamp returned
unchanged. -/
theorem C6_url_validation (u : List Char → List Char) (ext : Extractors)
    (net : Except (List Char) HttpResponse) (url : List Char) (mode : ExtractMode)
    (rl : Bool) (st now : Rat) :
    (pyStrip url = [] →
      web_fetch u ext net url mode rl st now = ⟨.error urlEmptyMsg, st, false⟩ ∧
      occursIn (("empty").toList) urlEmptyMsg = true) ∧
    (pyStrip url ≠ [] →
      (startsWithBy charEq httpScheme url || startsWithBy charEq httpsScheme url) = false →
      web_fetch u ext net url mode rl st now = ⟨.error urlSchemeMsg, st, false⟩ ∧
      occursIn (("http://").toList) urlSchemeMsg = true) := by
  constructor
  · intro h
    rw [web_fetch, if_pos h]
    exact ⟨rfl, by decide⟩
  · intro h1 h2
    rw [web_fetch, if_neg h1, if_pos h2]
    exact ⟨rfl, by decide⟩

/-- C6 witness: the validation theorem applied to an empty URL and to an
`ftp://` URL. -/
theorem C6_url_validation_witness :
    (pyStrip (("").toList) = [] ∧
      web_fetch (fun l => l) ⟨fun _ => none, fun _ => none⟩ (.error (("dns").toList))
          (("").toList) .markdown true 0 0
        = ⟨.error urlEmptyMsg, 0, false⟩) ∧
    (pyStrip (("ftp://example.com").toList) ≠ [] ∧
      web_fetch (fun l => l) ⟨fun _ => none, fun _ => none⟩ (.error (("dns").toList))
          (("ftp://example.com").toList) .markdown true 0 0
        = ⟨.error urlSchemeMsg, 0, false⟩) :=
  ⟨⟨by decide,
    ((C6_url_validation (fun l => l) ⟨fun _ => none, fun _ => none⟩ (.error (("dns").toList))
        (("").toList) .markdown true 0 0).1 (by decide)).1⟩,
   ⟨by decide,
    ((C6_url_validation (fun l => l) ⟨fun _ => none, fun _ => none⟩ (.error (("dns").toList))
        (("ftp://example.com").toList) .markdown true 0 0).2 (by decide) (by decide)).1⟩⟩

/-- When validation passes, `search` always sends exactly one request, whose
parameters are determined by the query composition and recency mapping. -/
theorem search_sends (clientUrl query : List Char) (max_results : Nat)
    (domain_filter : Option (List Char)) (recency : List Char)
    (backend : SearchRequest → Except BackendErr (List RawItem))
    (h1 : clientUrl ≠ []) (h2 : pyStrip query ≠ [])
    (h3 : (dfTruthy domain_filter
      && !(DOMAIN_FILTER_PATTERN_match (domain_filter.getD []))) = false) :
    (search clientUrl query max_results domain_filter recency backend).2
      = some ⟨(if dfTruthy domain_filter
            then sitePre ++ domain_filter.getD [] ++ chSp :: query else query),
          jsonStr, generalStr,
          timeRangeMap (if validRecencyCheck recency then recency else allTimeStr)⟩ := by
  rw [search, if_neg h1, if_neg h2, if_neg (by simp [h3])]
  rcases hbk : backend ⟨(if dfTruthy domain_filter
      then sitePre ++ domain_filter.getD [] ++ chSp :: query else query),
      jsonStr, generalStr,
      timeRangeMap (if validRecencyCheck recency then recency else allTimeStr)⟩ with e | items
  · simp only [hbk]
  · simp only [hbk]

/-- C7: on a successful backend response, `search` returns the first
`max_results` items in backend order, each mapped field-by-field
(`title`/`url`/`content`→snippet defaulting to the empty string when
missing, `publishedDate`→`published_date` left absent when missing), and
the result list never exceeds `max_results` entries. -/
theorem C7_result_mapping (clientUrl query : List Char) (max_results : Nat)
    (domain_filter : Option (List Char)) (recency : List Char) (items : List RawItem)
    (h1 : clientUrl ≠ []) (h2 : pyStrip query ≠ [])
    (h3 : (dfTruthy domain_filter
      && !(DOMAIN_FILTER_PATTERN_match (domain_filter.getD []))) = false) :
    (search clientUrl query max_results domain_filter recency (fun _ => .ok items)).1
      = .ok ((items.take max_results).map mkSearchResult) ∧
    ((items.take max_results).map mkSearchResult).length ≤ max_results ∧
    (∀ item : RawItem, item.publishedDate = none → (mkSearchResult item).published_date = none) ∧
    (∀ item : RawItem, (mkSearchResult item).published_date = item.publishedDate) ∧
    (∀ item : RawItem, item.title = none → (mkSearchResult item).title = []) := by
  refine ⟨?_, ?_, ?_, ?_, ?_⟩
  · rw [search, if_neg h1, if_neg h2, if_neg (by simp [h3])]
  · simp only [List.length_map, List.length_take]
    omega
  · intro item h
    simp [mkSearchResult, h]
  · intro item
    simp [mkSearchResult]
  · intro item h
    simp [mkSearchResult, h]

/-- C7 witness: the mapping theorem at a concrete backend response. -/
theorem C7_result_mapping_witness :
    ((("u").toList ≠ []) ∧ pyStrip (("q").toList) ≠ []) ∧
    (search (("u").toList) (("q").toList) 1 none allTimeStr
        (fun _ => .ok [⟨some (("T").toList), none, none, none⟩,
                       ⟨none, some (("U").toList), none, some (("D").toList)⟩])).1
      = .ok ((([⟨some (("T").toList), none, none, none⟩,
                ⟨none, some (("U").toList), none, some (("D").toList)⟩] : List RawItem).take 1).map
          mkSearchResult) :=
  ⟨⟨by decide, by decide⟩,
    (C7_result_mapping (("u").toList) (("q").toList) 1 none allTimeStr
      [⟨some (("T").toList), none, none, none⟩,
       ⟨none, some (("U").toList), none, some (("D").toList)⟩]
      (by decide) (by decide) (by decide)).1⟩

/-- C8: an unrecognized recency value never fails the call — the whole call
behaves exactly as if `all_time` had been passed, and the request sent omits
the time-range parameter; the four valid non-default values are copied
verbatim into `time_range`; `all_time` omits the parameter. -/
theorem C8_recency_handling (clientUrl query : List Char) (max_results : Nat)
    (domain_filter : Option (List Char)) (recency : List Char)
    (backend : SearchRequest → Except BackendErr (List RawItem))
    (h1 : clientUrl ≠ []) (h2 : pyStrip query ≠ [])
    (h3 : (dfTruthy domain_filter
      && !(DOMAIN_FILTER_PATTERN_match (domain_filter.getD []))) = false) :
    (validRecencyCheck recency = false →
      search clientUrl query max_results domain_filter recency backend
        = search clientUrl query max_results domain_filter allTimeStr backend) ∧
    (validRecencyCheck recency = false →
      ∃ req : SearchRequest,
        (search clientUrl query max_results domain_filter recency backend).2 = some req ∧
        req.time_range = none) ∧
    ((recency = dayStr ∨ recency = weekStr ∨ recency = monthStr ∨ recency = yearStr) →
      ∃ req : SearchRequest,
        (search clientUrl query max_results domain_filter recency backend).2 = some req ∧
        req.time_range = some recency) ∧
    (recency = allTimeStr →
      ∃ req : SearchRequest,
        (search clientUrl query max_results domain_filter recency backend).2 = some req ∧
        req.time_range = none) := by
  refine ⟨?_, ?_, ?_, ?_⟩
  · intro hv
    have e1 : (if validRecencyCheck recency then recency else allTimeStr) = allTimeStr := by
      simp [hv]
    have e2 : (if validRecencyCheck allTimeStr then allTimeStr else allTimeStr) = allTimeStr := by
      simp
    rw [search, search, e1, e2]
  · intro hv
    refine ⟨_, search_sends clientUrl query max_results domain_filter recency backend h1 h2 h3, ?_⟩
    show timeRangeMap (if validRecencyCheck recency then recency else allTimeStr) = none
    rw [if_neg (by simp [hv])]
    rfl
  · intro hv
    refine ⟨_, search_sends clientUrl query max_results domain_filter recency backend h1 h2 h3, ?_⟩
    rcases hv with h | h | h | h <;> subst h <;> rfl
  · intro hv
    subst hv
    refine ⟨_, search_sends clientUrl query max_results domain_filter allTimeStr backend h1 h2 h3, ?_⟩
    rfl

/-- C8 witness: an invalid recency value and the value `day`, at concrete
arguments. -/
theorem C8_recency_handling_witness :
    ((("u").toList ≠ [] ∧ pyStrip (("q").toList) ≠ [] ∧ validRecencyCheck (("bogus").toList) = false) ∧
      search (("u").toList) (("q").toList) 5 none (("bogus").toList) (fun _ => .ok [])
        = search (("u").toList) (("q").toList) 5 none allTimeStr (fun _ => .ok [])) ∧
    (∃ req : SearchRequest,
      (search (("u").toList) (("q").toList) 5 none dayStr (fun _ => .ok [])).2 = some req ∧
      req.time_range = some dayStr) :=
  ⟨⟨⟨by decide, by decide, by decide⟩,
    (C8_recency_handling (("u").toList) (("q").toList) 5 none (("bogus").toList)
      (fun _ => .ok []) (by decide) (by decide) (by decide)).1 (by decide)⟩,
   (C8_recency_handling (("u").toList) (("q").toList) 5 none dayStr
      (fun _ => .ok []) (by decide) (by decide) (by decide)).2.2.1 (Or.inl rfl)⟩

/-- C9 counterexample: the filter `wikipedia.org\n` does not match the
spec's domain grammar, yet the call does not fail — the request is sent with
the site-prefixed query — because the pattern's `$` anchor also matches just
before a trailing newline. -/
theorem C9_counterexample :
    specDomainGrammar (("wikipedia.org\n").toList) = false ∧
    (search (("http://sx").toList) (("q").toList) 5 (some (("wikipedia.org\n").toList)) allTimeStr
        (fun _ => .ok [])).1 = .ok [] ∧
    (search (("http://sx").toList) (("q").toList) 5 (some (("wikipedia.org\n").toList)) allTimeStr
        (fun _ => .ok [])).2
      = some ⟨("site:wikipedia.org\n q").toList, jsonStr, generalStr, none⟩ := by
  refine ⟨by decide, by rfl, by rfl⟩

/-- C9 (amended): a present (non-empty) domain filter accepted by
`DOMAIN_FILTER_PATTERN` leads to a request whose query is
`site:<domain> <query>`; a rejected filter fails with an `InvalidInput`
message naming the filter, before any request; with no filter the query is
sent verbatim.  The pattern accepts exactly the spec's grammar *or* a
grammar-conforming string followed by one trailing newline (an artifact of
Python's `$` anchor), so acceptance is slightly wider than the spec's
grammar. -/
theorem C9_domain_filter (clientUrl query : List Char) (max_results : Nat) (recency : List Char)
    (backend : SearchRequest → Except BackendErr (List RawItem))
    (h1 : clientUrl ≠ []) (h2 : pyStrip query ≠ []) :
    (∀ d : List Char, d ≠ [] → DOMAIN_FILTER_PATTERN_match d = true →
      (search clientUrl query max_results (some d) recency backend).2
        = some ⟨sitePre ++ d ++ chSp :: query, jsonStr, generalStr,
            timeRangeMap (if validRecencyCheck recency then recency else allTimeStr)⟩) ∧
    (∀ d : List Char, d ≠ [] → DOMAIN_FILTER_PATTERN_match d = false →
      search clientUrl query max_results (some d) recency backend
        = (.error (invalidDomainMsg d), none) ∧
      occursIn d (invalidDomainMsg d) = true) ∧
    ((search clientUrl query max_results none recency backend).2
      = some ⟨query, jsonStr, generalStr,
          timeRangeMap (if validRecencyCheck recency then recency else allTimeStr)⟩) ∧
    (∀ d : List Char,
      DOMAIN_FILTER_PATTERN_match d
        = (specDomainGrammar d || (d.getLast? == some chNl && specDomainGrammar d.dropLast))) := by
  refine ⟨?_, ?_, ?_, ?_⟩
  · intro d hd hmatch
    have hdf : dfTruthy (some d) = true := by
      cases d with
      | nil => exact absurd rfl hd
      | cons x xs => rfl
    have := search_sends clientUrl query max_results (some d) recency backend h1 h2
      (by simp [hdf, hmatch])
    rw [this]
    simp [hdf]
  · intro d hd hmatch
    have hdf : dfTruthy (some d) = true := by
      cases d with
      | nil => exact absurd rfl hd
      | cons x xs => rfl
    constructor
    · rw [search, if_neg h1, if_neg h2, if_pos (by simp [hdf, hmatch])]
      rfl
    · have := occursIn_append_self d (("Invalid domain_filter: '").toList)
        (("'. Must be a valid domain (e.g., 'wikipedia.org', 'gov').").toList)
      simpa [invalidDomainMsg, List.append_assoc] using this
  · have := search_sends clientUrl query max_results none recency backend h1 h2 (by rfl)
    rw [this]
    rfl
  · intro d
    rfl

/-- C9 witness: the amended theorem applied to an accepted and a rejected
filter. -/
theorem C9_domain_filter_witness :
    ((("u").toList ≠ [] ∧ pyStrip (("q").toList) ≠ [] ∧
      (("wikipedia.org").toList : List Char) ≠ [] ∧
      DOMAIN_FILTER_PATTERN_match (("wikipedia.org").toList) = true ∧
      (("bad domain!").toList : List Char) ≠ [] ∧
      DOMAIN_FILTER_PATTERN_match (("bad domain!").toList) = false) ∧
    (search (("u").toList) (("q").toList) 5 (some (("wikipedia.org").toList)) allTimeStr
        (fun _ => .ok [])).2
      = some ⟨sitePre ++ (("wikipedia.org").toList) ++ chSp :: (("q").toList), jsonStr, generalStr,
          timeRangeMap (if validRecencyCheck allTimeStr then allTimeStr else allTimeStr)⟩) ∧
    search (("u").toList) (("q").toList) 5 (some (("bad domain!").toList)) allTimeStr
        (fun _ => .ok [])
      = (.error (invalidDomainMsg (("bad domain!").toList)), none) :=
  ⟨⟨⟨by decide, by decide, by decide, by decide, by decide, by decide⟩,
    (C9_domain_filter (("u").toList) (("q").toList) 5 allTimeStr (fun _ => .ok [])
      (by decide) (by decide)).1 (("wikipedia.org").toList) (by decide) (by decide)⟩,
   ((C9_domain_filter (("u").toList) (("q").toList) 5 allTimeStr (fun _ => .ok [])
      (by decide) (by decide)).2.1 (("bad domain!").toList) (by decide) (by decide)).1⟩

/-- C10: a `domain_filter` equal to the empty string behaves exactly as an
absent filter (Python truthiness skips both the validation and the
`site:` prefix): the two calls are equal, no `InvalidInput` is raised, and
the request query is the user query verbatim. -/
theorem C10_empty_filter (clientUrl query : List Char) (max_results : Nat) (recency : List Char)
    (backend : SearchRequest → Except BackendErr (List RawItem)) :
    search clientUrl query max_results (some []) recency backend
      = search clientUrl query max_results none recency backend ∧
    (clientUrl ≠ [] → pyStrip query ≠ [] →
      (search clientUrl query max_results (some []) recency backend).2
        = some ⟨query, jsonStr, generalStr,
            timeRangeMap (if validRecencyCheck recency then recency else allTimeStr)⟩) := by
  constructor
  · rfl
  · intro h1 h2
    have := search_sends clientUrl query max_results (some []) recency backend h1 h2 (by rfl)
    rw [this]
    rfl

/-- C10 witness: the empty-filter theorem at concrete arguments. -/
theorem C10_empty_filter_witness :
    ((("u").toList ≠ []) ∧ pyStrip (("q").toList) ≠ []) ∧
    (search (("u").toList) (("q").toList) 5 (some []) allTimeStr (fun _ => .ok [])).2
      = some ⟨("q").toList, jsonStr, generalStr,
          timeRangeMap (if validRecencyCheck allTimeStr then allTimeStr else allTimeStr)⟩ :=
  ⟨⟨by decide, by decide⟩,
    (C10_empty_filter (("u").toList) (("q").toList) 5 allTimeStr (fun _ => .ok [])).2
      (by decide) (by decide)⟩
